import Mathlib

/-!
Verification development for the differential-synchronization server
(src/src/server.js).  The file has two parts:

Part 1 is a pure, value-level embedding of the per-room edit pipeline
(receiveEdit, its per-edit forEach body, and sendServerChanges,
server.js lines 149-273).  The jsondiffpatch library is an external
collaborator; it is abstracted as a DiffEngine record of diff, patch
and isEmpty functions.  In this value semantics utils.deepCopy is the
identity on values: the source deep-copies shadow.doc into backup.doc
and deep-copies edit.diff before each of the two patch applications so
that in-place mutation of one target (or of the delta) cannot leak
into the other; with explicit state passing each patch application
already receives the delta by value, so the deep-copy content of the
spec surfaces as plain value equations.

Part 2 is an event-driven small-step machine for the asynchronous
parts: getData (the room cache with load de-duplication, lines
113-141) and saveSnapshot (the per-room save coalescer, lines
218-246).  Adapter completions (getData and storeData callbacks) are
explicit machine actions; outstanding adapter calls are kept in
pending lists together with the continuation the source captures, and
every adapter invocation and callback delivery is recorded in a trace.
-/

set_option linter.unusedVariables false

namespace DiffSync

/-- Abstraction of the jsondiffpatch instance plus lodash isEmpty:
diff two documents, patch a document with a delta, test a delta for
emptiness.  The server only ever uses these three entry points. -/
structure DiffEngine (Doc Diff : Type) where
  diff : Doc → Doc → Diff
  patch : Doc → Diff → Doc
  isEmpty : Diff → Bool

/-- The shadow of a client: server.js lines 69-73. -/
structure Shadow (Doc : Type) where
  doc : Doc
  serverVersion : Nat
  localVersion : Nat
deriving DecidableEq

/-- The backup of a client: server.js lines 65-68. -/
structure Backup (Doc : Type) where
  doc : Doc
  serverVersion : Nat
deriving DecidableEq

/-- One wire edit: a pair of version counters and a delta. -/
structure Edit (Diff : Type) where
  serverVersion : Nat
  localVersion : Nat
  diff : Diff
deriving DecidableEq

/-- Per-(room, client) synchronization state, server.js lines 64-75
(the value stored in data.clientVersions[connection.id]). -/
structure ClientDoc (Doc Diff : Type) where
  backup : Backup Doc
  shadow : Shadow Doc
  edits : List (Edit Diff)
deriving DecidableEq

/-- Per-room state, server.js lines 128-132 (the value stored in
this.data[room]). -/
structure RoomState (Doc Diff : Type) where
  registeredSockets : List String
  clientVersions : List (String × ClientDoc Doc Diff)
  serverCopy : Doc
deriving DecidableEq

/-- The inbound sync message.  In the source the top-level
serverVersion is an ordinary (possibly absent) object property; the
strict equality test on line 166 fails when it is absent, which the
Option models. -/
structure EditMessage (Diff : Type) where
  room : String
  serverVersion : Option Nat
  edits : List (Edit Diff)
deriving DecidableEq

/-- The payload handed to the reply callback, server.js lines 268-272. -/
structure Reply (Diff : Type) where
  localVersion : Nat
  serverVersion : Nat
  edits : List (Edit Diff)
deriving DecidableEq

/-- Observable outputs of one receiveEdit call: the reply callback
invocation (at most one), the error event payload emitted on the
originating connection, whether remoteUpdateIncoming was broadcast to
the room, and the edits argument passed to saveSnapshot (none when
saveSnapshot was not called). -/
structure ReceiveOutput (Diff : Type) where
  reply : Option (Reply Diff)
  errorMsg : Option String
  broadcast : Bool
  savedEdits : Option (List (Edit Diff))
deriving DecidableEq

/-- Modelled from the spec: the COMMANDS table (src/commands, not
under src/) maps the error wire event to a string channel; the payload
the server sends on it at line 161 is this exact string. -/
def needReconnect : String := "Need to re-connect!"

/-- Lookup of doc.clientVersions[connection.id], line 157. -/
def lookupClient {Doc Diff : Type} (dc : RoomState Doc Diff) (connId : String) :
    Option (ClientDoc Doc Diff) :=
  dc.clientVersions.lookup connId

/-- Writing the (in the source, aliased and mutated in place) client
state back into the room state at the end of processing. -/
def setClient {Doc Diff : Type} (dc : RoomState Doc Diff) (connId : String)
    (c : ClientDoc Doc Diff) : RoomState Doc Diff :=
  { dc with clientVersions :=
      (connId, c) :: dc.clientVersions.filter (fun p => !(p.1 == connId)) }

/-- The body of the per-edit forEach, server.js lines 171-199: when
both version counters match the shadow, back up the shadow document,
patch shadow and server copy with the delta, and bump
shadow.localVersion when the delta is non-empty; otherwise the edit is
rejected (only a diagnostic log) and nothing changes. -/
def applyEdit {Doc Diff : Type} (E : DiffEngine Doc Diff)
    (s : RoomState Doc Diff × ClientDoc Doc Diff) (edit : Edit Diff) :
    RoomState Doc Diff × ClientDoc Doc Diff :=
  let dc := s.1
  let c := s.2
  if edit.serverVersion = c.shadow.serverVersion ∧
      edit.localVersion = c.shadow.localVersion then
    ({ dc with serverCopy := E.patch dc.serverCopy edit.diff },
     { c with
        backup := { doc := c.shadow.doc, serverVersion := c.backup.serverVersion },
        shadow :=
          { doc := E.patch c.shadow.doc edit.diff,
            serverVersion := c.shadow.serverVersion,
            localVersion :=
              if E.isEmpty edit.diff then c.shadow.localVersion
              else c.shadow.localVersion + 1 } })
  else
    (dc, c)

/-- The forEach over editMessage.edits, line 171: edits are processed
strictly in message order. -/
def processEdits {Doc Diff : Type} (E : DiffEngine Doc Diff)
    (s : RoomState Doc Diff × ClientDoc Doc Diff) (es : List (Edit Diff)) :
    RoomState Doc Diff × ClientDoc Doc Diff :=
  es.foldl (applyEdit E) s

/-- Lines 165-168: when the message-level serverVersion equals the
shadow serverVersion the pending outbound edit queue is dropped. -/
def ackClear {Doc Diff : Type} (msg : EditMessage Diff) (c : ClientDoc Doc Diff) :
    ClientDoc Doc Diff :=
  if msg.serverVersion = some c.shadow.serverVersion then { c with edits := [] } else c

/-- sendServerChanges, server.js lines 248-273.  The room state is
read but never written; the function returns the updated client state
and the payload passed to the send callback (which the source invokes
exactly once, unconditionally, at line 268). -/
def sendServerChanges {Doc Diff : Type} (E : DiffEngine Doc Diff)
    (dc : RoomState Doc Diff) (c : ClientDoc Doc Diff) :
    ClientDoc Doc Diff × Reply Diff :=
  let d := E.diff c.shadow.doc dc.serverCopy
  let basedOnServerVersion := c.shadow.serverVersion
  let c2 :=
    if E.isEmpty d then c
    else
      { c with
        edits := c.edits ++
          [{ serverVersion := basedOnServerVersion,
             localVersion := c.shadow.localVersion, diff := d }],
        shadow :=
          { doc := E.patch c.shadow.doc d,
            serverVersion := basedOnServerVersion + 1,
            localVersion := c.shadow.localVersion } }
  (c2, { localVersion := c2.shadow.localVersion,
         serverVersion := basedOnServerVersion,
         edits := c2.edits })

/-- The allowed-path pipeline of receiveEdit, lines 165-209: ack-clear
the edit queue, fold the per-edit body over the message edits, then
compute the reply via sendServerChanges. -/
def processAllowed {Doc Diff : Type} (E : DiffEngine Doc Diff)
    (msg : EditMessage Diff) (dc : RoomState Doc Diff) (c : ClientDoc Doc Diff) :
    RoomState Doc Diff × ClientDoc Doc Diff × Reply Diff :=
  let c1 := ackClear msg c
  let s2 := processEdits E (dc, c1) msg.edits
  let cr := sendServerChanges E s2.1 s2.2
  (s2.1, cr.1, cr.2)

/-- receiveEdit, server.js lines 149-216, for a message whose room
data is loaded.  The asynchronous checkDiffs adapter call is external;
its callback arguments (err, res) enter as the checkErr and allowed
parameters.  When res is falsy nothing at all happens (line 211); when
res is truthy but err is set or the connection has no client state the
error event is emitted and processing stops (lines 160-163); otherwise
the pipeline runs, saveSnapshot is invoked with editMessage.edits,
remoteUpdateIncoming is broadcast when the message carried at least
one edit, and the reply callback is invoked once. -/
def receiveEdit {Doc Diff : Type} (E : DiffEngine Doc Diff) (connId : String)
    (msg : EditMessage Diff) (checkErr : Bool) (allowed : Bool)
    (dc : RoomState Doc Diff) : RoomState Doc Diff × ReceiveOutput Diff :=
  if allowed then
    match lookupClient dc connId with
    | none =>
        (dc, { reply := none, errorMsg := some needReconnect,
               broadcast := false, savedEdits := none })
    | some c =>
        if checkErr then
          (dc, { reply := none, errorMsg := some needReconnect,
                 broadcast := false, savedEdits := none })
        else
          let r := processAllowed E msg dc c
          (setClient r.1 connId r.2.1,
           { reply := some r.2.2, errorMsg := none,
             broadcast := !msg.edits.isEmpty, savedEdits := some msg.edits })
  else
    (dc, { reply := none, errorMsg := none, broadcast := false, savedEdits := none })

/-- A concrete diff engine over natural-number documents, used to
exercise the theorems on closed inputs: the delta from a to b is none
when they agree and some b otherwise; patching applies the recorded
target; the empty delta is none.  It satisfies the DiffEngine
contract of the spec (diff a a empty, patch a (diff a b) = b). -/
def natEngine : DiffEngine Nat (Option Nat) where
  diff a b := if a = b then none else some b
  patch d x := x.getD d
  isEmpty x := x.isNone

/-- A freshly joined client over document 5. -/
def cW : ClientDoc Nat (Option Nat) :=
  { backup := { doc := 5, serverVersion := 0 },
    shadow := { doc := 5, serverVersion := 0, localVersion := 0 },
    edits := [] }

/-- Room state with client a in sync with serverCopy 5. -/
def dcW : RoomState Nat (Option Nat) :=
  { registeredSockets := [], clientVersions := [("a", cW)], serverCopy := 5 }

/-- Room state where the server copy (9) has moved ahead of the shadow
(5) of client a. -/
def dcW2 : RoomState Nat (Option Nat) :=
  { registeredSockets := [], clientVersions := [("a", cW)], serverCopy := 9 }

/-- Room state with no tracked clients. -/
def dcEmptyW : RoomState Nat (Option Nat) :=
  { registeredSockets := [], clientVersions := [], serverCopy := 5 }

/-- A client edit matching the fresh client versions. -/
def eW : Edit (Option Nat) :=
  { serverVersion := 0, localVersion := 0, diff := some 7 }

/-- A sync message carrying that edit. -/
def msgW : EditMessage (Option Nat) :=
  { room := "r", serverVersion := some 0, edits := [eW] }

namespace Async

/-- Pointwise update of a string-keyed map, mirroring m[k] = v on a
plain object used as a dictionary. -/
def upd {α : Type} (m : String → α) (k : String) (v : α) : String → α :=
  fun r => if r = k then v else m r

/-- The slice of a cached room relevant to the load and save machines:
the serverCopy field of the object built on lines 128-132.  It is an
Option because the source stores whatever the adapter callback passed
as data, including undefined on a failed load (the error argument is
never inspected).  The clientVersions and registeredSockets fields of
the cached object play no role in loading or saving and are carried by
the pure model of Part 1. -/
structure RoomCache (D : Type) where
  serverCopy : Option D
deriving DecidableEq

/-- The continuation captured when getData has to go to the adapter:
either the callback of an outside caller (join / receiveEdit), identified
by a number, or the callback saveSnapshot passes on line 234, which
closes over the room, the triggering edits batch and the userid. -/
inductive Cb (E : Type) where
  | caller (cid : Nat)
  | saveCont (room : String) (edits : E) (userid : String)
deriving DecidableEq

/-- One outstanding adapter.getData invocation together with the one
callback the source captured for it (lines 127-136). -/
structure PendingLoad (E : Type) where
  room : String
  cb : Cb E
deriving DecidableEq

/-- One outstanding adapter.storeData invocation; its completion
continuation is checkQueueAndSaveAgain closing over exactly these
three values (lines 220-228, 237). -/
structure PendingStore (E : Type) where
  room : String
  edits : E
  userid : String
deriving DecidableEq

/-- Observable events: adapter invocations and caller notifications. -/
inductive Ev (D E : Type) where
  | adapterGetData (room : String)
  | notify (cid : Nat) (room : String) (serverCopy : Option D)
  | adapterStoreData (room : String) (serverCopy : Option D) (edits : E) (userid : String)
deriving DecidableEq

/-- The process-wide server state: this.data, this.requests,
this.saveRequests, this.saveQueue (lines 20-23), plus the outstanding
adapter calls and the event trace. -/
structure SrvState (D E : Type) where
  data : String → Option (RoomCache D)
  requests : String → Bool
  saveRequests : String → Bool
  saveQueue : String → Bool
  pendingLoads : List (PendingLoad E)
  pendingStores : List (PendingStore E)
  trace : List (Ev D E)

/-- The freshly constructed server: all maps empty, nothing pending. -/
def initState {D E : Type} : SrvState D E :=
  { data := fun _ => none, requests := fun _ => false,
    saveRequests := fun _ => false, saveQueue := fun _ => false,
    pendingLoads := [], pendingStores := [], trace := [] }

/-- Delivery of a getData result to the captured continuation.  A
caller callback just receives the room state (recorded as a notify
event).  The saveSnapshot continuation (line 234) issues
adapter.storeData with the serverCopy it was just handed and the
captured edits and userid; its guard (!err && data) always takes the
storeData branch because getData only ever passes a null error and a
truthy room object to its callback. -/
def invokeCb {D E : Type} (st : SrvState D E) (room : String) (rc : RoomCache D) :
    Cb E → SrvState D E
  | .caller cid =>
      { st with trace := st.trace ++ [.notify cid room rc.serverCopy] }
  | .saveCont sroom edits userid =>
      { st with
        pendingStores := st.pendingStores ++ [{ room := sroom, edits := edits, userid := userid }],
        trace := st.trace ++ [.adapterStoreData sroom rc.serverCopy edits userid] }

/-- getData, server.js lines 113-141.  Cache hit: the callback runs at
once.  Cache miss with no request in flight: requests[room] is set and
the adapter is invoked with this one callback captured.  Cache miss
with a request in flight: the source only re-runs requests[room] =
true and the callback is dropped on the floor. -/
def getDataFn {D E : Type} (st : SrvState D E) (room : String) (cb : Cb E) :
    SrvState D E :=
  match st.data room with
  | some rc => invokeCb st room rc cb
  | none =>
      if st.requests room then
        { st with requests := upd st.requests room true }
      else
        { st with
          requests := upd st.requests room true,
          pendingLoads := st.pendingLoads ++ [{ room := room, cb := cb }],
          trace := st.trace ++ [.adapterGetData room] }

/-- saveSnapshot, server.js lines 218-246.  With no save in flight the
save slot is taken and the current room data is re-read through
getData, whose saveCont continuation issues storeData; otherwise only
the one-slot queue flag is set. -/
def saveSnapshot {D E : Type} (st : SrvState D E) (room : String) (edits : E)
    (userid : String) : SrvState D E :=
  if st.saveRequests room then
    { st with saveQueue := upd st.saveQueue room true }
  else
    getDataFn { st with saveRequests := upd st.saveRequests room true } room
      (.saveCont room edits userid)

/-- Remove the first list element satisfying p, returning it and the
remainder. -/
def takeFirst {α : Type} (p : α → Bool) : List α → Option (α × List α)
  | [] => none
  | x :: rest =>
    if p x then some (x, rest)
    else
      match takeFirst p rest with
      | some (y, l2) => some (y, x :: l2)
      | none => none

/-- Completion of an outstanding adapter.getData call for a room
(lines 127-136).  The source ignores the error argument entirely: it
unconditionally publishes a cache entry whose serverCopy is whatever
data the adapter passed (undefined on failure), clears
requests[room], and invokes the captured callback with the fresh
cache entry. -/
def loadDone {D E : Type} (st : SrvState D E) (room : String) (err : Option String)
    (d : Option D) : SrvState D E :=
  match takeFirst (fun pl => pl.room == room) st.pendingLoads with
  | none => st
  | some (pl, rest) =>
      let rc : RoomCache D := { serverCopy := d }
      let st1 := { st with
        pendingLoads := rest,
        data := upd st.data room (some rc),
        requests := upd st.requests room false }
      invokeCb st1 room rc pl.cb

/-- checkQueueAndSaveAgain, lines 220-228: read the queue flag,
release the save slot, and when a follow-up was queued clear the flag
and re-run saveSnapshot with the originally captured edits and
userid. -/
def checkQueueAndSaveAgain {D E : Type} (st : SrvState D E) (room : String)
    (edits : E) (userid : String) : SrvState D E :=
  let anotherRequestScheduled := st.saveQueue room
  let st1 := { st with saveRequests := upd st.saveRequests room false }
  if anotherRequestScheduled then
    saveSnapshot { st1 with saveQueue := upd st1.saveQueue room false } room edits userid
  else st1

/-- Completion of an outstanding adapter.storeData call for a room:
runs the checkQueueAndSaveAgain continuation with the values that
pending store captured. -/
def storeDone {D E : Type} (st : SrvState D E) (room : String) : SrvState D E :=
  match takeFirst (fun ps => ps.room == room) st.pendingStores with
  | none => st
  | some (ps, rest) =>
      checkQueueAndSaveAgain { st with pendingStores := rest } ps.room ps.edits ps.userid

/-- An in-place mutation of the serverCopy of a cached room, as performed
by the receiveEdit pipeline (line 186) between other asynchronous
events.  A no-op when the room is not cached. -/
def editServerCopy {D E : Type} (st : SrvState D E) (room : String) (d : D) :
    SrvState D E :=
  match st.data room with
  | some _ => { st with data := upd st.data room (some { serverCopy := some d }) }
  | none => st

/-- The schedulable events of the asynchronous model. -/
inductive Act (D E : Type) where
  | getData (room : String) (cid : Nat)
  | loadDone (room : String) (err : Option String) (d : Option D)
  | save (room : String) (edits : E) (userid : String)
  | storeDone (room : String)
  | editServerCopy (room : String) (d : D)

/-- One scheduling step. -/
def step {D E : Type} (st : SrvState D E) : Act D E → SrvState D E
  | .getData room cid => getDataFn st room (.caller cid)
  | .loadDone room err d => loadDone st room err d
  | .save room edits userid => saveSnapshot st room edits userid
  | .storeDone room => storeDone st room
  | .editServerCopy room d => editServerCopy st room d

/-- Run the machine from the fresh server over a schedule. -/
def run {D E : Type} (acts : List (Act D E)) : SrvState D E :=
  acts.foldl step initState

def boolNat (b : Bool) : Nat := if b then 1 else 0

/-- Recognizer for the adapter.getData invocation event of a room. -/
def isGetEv {D E : Type} (room : String) : Ev D E → Bool
  | .adapterGetData r => r == room
  | _ => false

/-- How many times adapter.getData has been invoked for a room. -/
def countGet {D E : Type} (st : SrvState D E) (room : String) : Nat :=
  (st.trace.filter (isGetEv room)).length

def isLoadFor {E : Type} (room : String) (pl : PendingLoad E) : Bool :=
  pl.room == room

/-- How many adapter.getData calls are outstanding for a room. -/
def plCount {D E : Type} (st : SrvState D E) (room : String) : Nat :=
  (st.pendingLoads.filter (isLoadFor room)).length

def isSaveCb {E : Type} : Cb E → Bool
  | .saveCont _ _ _ => true
  | .caller _ => false

def isSaveLoadFor {E : Type} (room : String) (pl : PendingLoad E) : Bool :=
  pl.room == room && isSaveCb pl.cb

/-- How many outstanding getData calls for a room belong to a pending
saveSnapshot. -/
def slCount {D E : Type} (st : SrvState D E) (room : String) : Nat :=
  (st.pendingLoads.filter (isSaveLoadFor room)).length

def isStoreFor {E : Type} (room : String) (ps : PendingStore E) : Bool :=
  ps.room == room

/-- How many adapter.storeData calls are outstanding for a room. -/
def psCount {D E : Type} (st : SrvState D E) (room : String) : Nat :=
  (st.pendingStores.filter (isStoreFor room)).length

/-- Well-formedness of one pending load: a save continuation is
always registered for the room of its own load, because saveSnapshot
passes the same room to getData and into the continuation closure. -/
def cbOk {E : Type} (pl : PendingLoad E) : Prop :=
  match pl.cb with
  | .caller _ => True
  | .saveCont r _ _ => r = pl.room

/-- Load-machine invariant: adapter.getData has been invoked for a
room exactly once iff the room is cached or a load request is in
flight, and an outstanding adapter load exists exactly when a request
is in flight for a not-yet-cached room. -/
def GInv {D E : Type} (st : SrvState D E) : Prop :=
  ∀ room,
    countGet st room = boolNat ((st.data room).isSome || st.requests room) ∧
    plCount st room = boolNat (st.requests room && !(st.data room).isSome)

/-- Save-machine invariant: per room, the outstanding storeData calls
plus the outstanding save-continuation loads never exceed one, they
are zero whenever the save slot is free, and every pending load is
well-formed. -/
def SInv {D E : Type} (st : SrvState D E) : Prop :=
  (∀ room, psCount st room + slCount st room ≤ 1 ∧
    (st.saveRequests room = false → psCount st room + slCount st room = 0)) ∧
  ∀ pl ∈ st.pendingLoads, cbOk pl

/-- A server with room r cached at serverCopy 3 and nothing pending. -/
def stW4 : SrvState Nat Nat :=
  { data := upd (fun _ => none) "r" (some { serverCopy := some 3 }),
    requests := fun _ => false, saveRequests := fun _ => false,
    saveQueue := fun _ => false, pendingLoads := [], pendingStores := [],
    trace := [] }

/-- A server with room r cached at serverCopy 9, one storeData in
flight (edits batch 1 of user u) and a queued follow-up save. -/
def stW3 : SrvState Nat Nat :=
  { data := upd (fun _ => none) "r" (some { serverCopy := some 9 }),
    requests := fun _ => false,
    saveRequests := upd (fun _ => false) "r" true,
    saveQueue := upd (fun _ => false) "r" true,
    pendingLoads := [],
    pendingStores := [{ room := "r", edits := 1, userid := "u" }],
    trace := [] }

/-- Two callers ask for a room before the adapter load returns. -/
def actsW5 : List (Act Nat Nat) :=
  [.getData "r" 1, .getData "r" 2, .loadDone "r" none (some 7)]

/-- The adapter load fails, then another caller asks for the room. -/
def actsW6 : List (Act Nat Nat) :=
  [.getData "r" 1, .loadDone "r" (some "boom") none, .getData "r" 2]

end Async

/-- Claim C1: in the per-edit loop of receiveEdit (which processEdits folds
over the message edits in order), an edit whose two version counters
match the shadow sets backup.doc to the pre-edit shadow document,
patches shadow.doc and the room serverCopy with the edit delta, and
bumps shadow.localVersion exactly when the delta is non-empty (leaving
shadow.serverVersion and the edit queue alone); a mismatching edit
changes nothing, and in either case processing continues with the
remaining edits of the message. -/
theorem C1_per_edit_processing {Doc Diff : Type} (E : DiffEngine Doc Diff)
    (dc : RoomState Doc Diff) (c : ClientDoc Doc Diff) (e : Edit Diff)
    (es : List (Edit Diff)) :
    ((e.serverVersion = c.shadow.serverVersion ∧
        e.localVersion = c.shadow.localVersion) →
      (applyEdit E (dc, c) e).2.backup.doc = c.shadow.doc ∧
      (applyEdit E (dc, c) e).2.shadow.doc = E.patch c.shadow.doc e.diff ∧
      (applyEdit E (dc, c) e).1.serverCopy = E.patch dc.serverCopy e.diff ∧
      (applyEdit E (dc, c) e).2.shadow.localVersion =
        (if E.isEmpty e.diff then c.shadow.localVersion
         else c.shadow.localVersion + 1) ∧
      (applyEdit E (dc, c) e).2.shadow.serverVersion = c.shadow.serverVersion ∧
      (applyEdit E (dc, c) e).2.edits = c.edits) ∧
    (¬(e.serverVersion = c.shadow.serverVersion ∧
        e.localVersion = c.shadow.localVersion) →
      applyEdit E (dc, c) e = (dc, c)) ∧
    processEdits E (dc, c) (e :: es) = processEdits E (applyEdit E (dc, c) e) es := by
  refine ⟨fun h => ?_, fun h => ?_, rfl⟩
  · simp [applyEdit, h]
  · simp [applyEdit, h]

/-- Witness for C1: the matching edit eW on the fresh client. -/
theorem C1_per_edit_processing_witness :
    (eW.serverVersion = cW.shadow.serverVersion ∧
      eW.localVersion = cW.shadow.localVersion) ∧
    ((applyEdit natEngine (dcW, cW) eW).2.backup.doc = cW.shadow.doc ∧
      (applyEdit natEngine (dcW, cW) eW).2.shadow.doc =
        natEngine.patch cW.shadow.doc eW.diff ∧
      (applyEdit natEngine (dcW, cW) eW).1.serverCopy =
        natEngine.patch dcW.serverCopy eW.diff ∧
      (applyEdit natEngine (dcW, cW) eW).2.shadow.localVersion =
        (if natEngine.isEmpty eW.diff then cW.shadow.localVersion
         else cW.shadow.localVersion + 1) ∧
      (applyEdit natEngine (dcW, cW) eW).2.shadow.serverVersion =
        cW.shadow.serverVersion ∧
      (applyEdit natEngine (dcW, cW) eW).2.edits = cW.edits) :=
  ⟨⟨rfl, rfl⟩, (C1_per_edit_processing natEngine dcW cW eW []).1 ⟨rfl, rfl⟩⟩

/-- Claim C2: sendServerChanges diffs the shadow against the server
copy; a non-empty delta is appended to the client edit queue tagged
with the pre-update serverVersion and the current localVersion, the
shadow serverVersion is incremented and the shadow document patched;
an empty delta changes nothing; and in every case exactly one reply is
produced carrying the (unchanged) localVersion, the pre-update
serverVersion, and the resulting edit queue. -/
theorem C2_sendServerChanges_behavior {Doc Diff : Type} (E : DiffEngine Doc Diff)
    (dc : RoomState Doc Diff) (c : ClientDoc Doc Diff) :
    (E.isEmpty (E.diff c.shadow.doc dc.serverCopy) = false →
      (sendServerChanges E dc c).1.edits =
        c.edits ++ [{ serverVersion := c.shadow.serverVersion,
                      localVersion := c.shadow.localVersion,
                      diff := E.diff c.shadow.doc dc.serverCopy }] ∧
      (sendServerChanges E dc c).1.shadow.serverVersion =
        c.shadow.serverVersion + 1 ∧
      (sendServerChanges E dc c).1.shadow.doc =
        E.patch c.shadow.doc (E.diff c.shadow.doc dc.serverCopy) ∧
      (sendServerChanges E dc c).1.shadow.localVersion = c.shadow.localVersion) ∧
    (E.isEmpty (E.diff c.shadow.doc dc.serverCopy) = true →
      (sendServerChanges E dc c).1 = c) ∧
    (sendServerChanges E dc c).2 =
      { localVersion := c.shadow.localVersion,
        serverVersion := c.shadow.serverVersion,
        edits := (sendServerChanges E dc c).1.edits } := by
  refine ⟨fun h => ?_, fun h => ?_, ?_⟩
  · simp [sendServerChanges, h]
  · simp [sendServerChanges, h]
  · by_cases h : E.isEmpty (E.diff c.shadow.doc dc.serverCopy) = true
    · simp [sendServerChanges, h]
    · simp [sendServerChanges, h]

/-- Witness for C2: the shadow (5) of client a differs from the server
copy (9), so an edit is enqueued, and the reply carries it. -/
theorem C2_sendServerChanges_witness :
    natEngine.isEmpty (natEngine.diff cW.shadow.doc dcW2.serverCopy) = false ∧
    ((sendServerChanges natEngine dcW2 cW).1.edits =
        cW.edits ++ [{ serverVersion := cW.shadow.serverVersion,
                       localVersion := cW.shadow.localVersion,
                       diff := natEngine.diff cW.shadow.doc dcW2.serverCopy }] ∧
      (sendServerChanges natEngine dcW2 cW).1.shadow.serverVersion =
        cW.shadow.serverVersion + 1 ∧
      (sendServerChanges natEngine dcW2 cW).1.shadow.doc =
        natEngine.patch cW.shadow.doc (natEngine.diff cW.shadow.doc dcW2.serverCopy) ∧
      (sendServerChanges natEngine dcW2 cW).1.shadow.localVersion =
        cW.shadow.localVersion) ∧
    (sendServerChanges natEngine dcW2 cW).2 =
      { localVersion := cW.shadow.localVersion,
        serverVersion := cW.shadow.serverVersion,
        edits := (sendServerChanges natEngine dcW2 cW).1.edits } :=
  ⟨rfl, (C2_sendServerChanges_behavior natEngine dcW2 cW).1 rfl,
    (C2_sendServerChanges_behavior natEngine dcW2 cW).2.2⟩

/-- Claim C7: when checkDiffs reports the message as not allowed,
receiveEdit returns silently: no reply, no error event, no broadcast,
no saveSnapshot call, and the room state (server copy and every
tracked client) is untouched. -/
theorem C7_disallowed_edit_silent {Doc Diff : Type} (E : DiffEngine Doc Diff)
    (connId : String) (msg : EditMessage Diff) (checkErr : Bool)
    (dc : RoomState Doc Diff) :
    receiveEdit E connId msg checkErr false dc =
      (dc, { reply := none, errorMsg := none, broadcast := false,
             savedEdits := none }) :=
  rfl

/-- Claim C8: after checkDiffs allows the message, and before the
individual edits are folded, the client edit queue is cleared exactly
when the message-level serverVersion equals the shadow serverVersion
(so the pipeline result does not depend on the old queue), and is left
intact at that step otherwise. -/
theorem C8_ack_clears_edit_queue {Doc Diff : Type} (E : DiffEngine Doc Diff)
    (msg : EditMessage Diff) (dc : RoomState Doc Diff) (c : ClientDoc Doc Diff) :
    (msg.serverVersion = some c.shadow.serverVersion →
      ackClear msg c = { c with edits := [] } ∧
      processAllowed E msg dc c = processAllowed E msg dc { c with edits := [] }) ∧
    (msg.serverVersion ≠ some c.shadow.serverVersion →
      ackClear msg c = c) := by
  constructor
  · intro h
    have h1 : ackClear msg c = { c with edits := [] } := by
      simp [ackClear, h]
    have h2 : ackClear msg { c with edits := [] } = { c with edits := [] } := by
      simp [ackClear, h]
    exact ⟨h1, by simp only [processAllowed, h1, h2]⟩
  · intro h
    simp [ackClear, h]

/-- Witness for C8: msgW acknowledges server version 0, which is the
shadow serverVersion of the fresh client. -/
theorem C8_ack_clears_edit_queue_witness :
    msgW.serverVersion = some cW.shadow.serverVersion ∧
    (ackClear msgW cW = { cW with edits := [] } ∧
      processAllowed natEngine msgW dcW cW =
        processAllowed natEngine msgW dcW { cW with edits := [] }) :=
  ⟨rfl, (C8_ack_clears_edit_queue natEngine msgW dcW cW).1 rfl⟩

/-- Claim C9: when the message is allowed but the connection has no
entry in roomState.clients, receiveEdit emits the error event carrying
exactly the re-connect string to that connection and stops: no edit is
applied, no save, no broadcast, no reply, state unchanged. -/
theorem C9_unknown_client_error {Doc Diff : Type} (E : DiffEngine Doc Diff)
    (connId : String) (msg : EditMessage Diff) (checkErr : Bool)
    (dc : RoomState Doc Diff) (h : lookupClient dc connId = none) :
    receiveEdit E connId msg checkErr true dc =
      (dc, { reply := none, errorMsg := some needReconnect, broadcast := false,
             savedEdits := none }) := by
  simp [receiveEdit, h]

/-- Witness for C9: a room with no tracked clients. -/
theorem C9_unknown_client_error_witness :
    lookupClient dcEmptyW "a" = none ∧
    receiveEdit natEngine "a" msgW false true dcEmptyW =
      (dcEmptyW, { reply := none, errorMsg := some needReconnect,
                   broadcast := false, savedEdits := none }) :=
  ⟨rfl, C9_unknown_client_error natEngine "a" msgW false dcEmptyW rfl⟩

namespace Async

theorem boolNat_le_one (b : Bool) : boolNat b ≤ 1 := by
  cases b <;> simp [boolNat]

theorem boolNat_eq_one {b : Bool} (h : boolNat b = 1) : b = true := by
  cases b <;> simp [boolNat] at h ⊢

theorem GInv_invokeCb {D E : Type} (st : SrvState D E) (room : String)
    (rc : RoomCache D) (cb : Cb E) (h : GInv st) : GInv (invokeCb st room rc cb) := by
  cases cb with
  | caller cid =>
    intro r
    have hr := h r
    simpa [invokeCb, countGet, plCount, isGetEv, List.filter_append] using hr
  | saveCont sr e u =>
    intro r
    have hr := h r
    simpa [invokeCb, countGet, plCount, isGetEv, List.filter_append] using hr

theorem GInv_getDataFn {D E : Type} (st : SrvState D E) (room : String) (cb : Cb E)
    (h : GInv st) : GInv (getDataFn st room cb) := by
  unfold getDataFn
  cases hd : st.data room with
  | some rc => exact GInv_invokeCb st room rc cb h
  | none =>
    by_cases hq : st.requests room = true
    · rw [if_pos hq]
      have hup : upd st.requests room true = st.requests := by
        funext r
        by_cases hrr : r = room
        · subst hrr; simp [upd, hq]
        · simp [upd, hrr]
      rw [hup]
      exact h
    · rw [if_neg hq]
      have hq2 : st.requests room = false := by simpa using hq
      intro r
      by_cases hrr : r = room
      · subst hrr
        have hr1 := (h r).1
        have hr2 := (h r).2
        constructor
        · simp [countGet, List.filter_append, isGetEv, upd, hd, hq2, boolNat] at hr1 ⊢
          exact hr1
        · simp [plCount, List.filter_append, isLoadFor, upd, hd, hq2, boolNat] at hr2 ⊢
          exact hr2
      · have hrn : ¬(room = r) := fun hc => hrr hc.symm
        constructor
        · simpa [countGet, List.filter_append, isGetEv, upd, hrr, hrn] using (h r).1
        · simpa [plCount, List.filter_append, isLoadFor, upd, hrr, hrn] using (h r).2

theorem takeFirst_spec {α : Type} (p : α → Bool) :
    ∀ (l : List α) (x : α) (rest : List α), takeFirst p l = some (x, rest) →
      p x = true ∧ x ∈ l ∧ (∀ y ∈ rest, y ∈ l) ∧
      ∀ q : α → Bool, (l.filter q).length = boolNat (q x) + (rest.filter q).length := by
  intro l
  induction l with
  | nil => intro x rest h; simp [takeFirst] at h
  | cons a t ih =>
    intro x rest h
    rw [takeFirst] at h
    by_cases hpa : p a = true
    · rw [if_pos hpa] at h
      simp only [Option.some.injEq, Prod.mk.injEq] at h
      obtain ⟨rfl, rfl⟩ := h
      refine ⟨hpa, List.mem_cons_self a t, fun y hy => List.mem_cons_of_mem a hy,
        fun q => ?_⟩
      by_cases hqa : q a = true <;> simp [List.filter_cons, hqa, boolNat] <;> omega
    · rw [if_neg hpa] at h
      cases htf : takeFirst p t with
      | none => rw [htf] at h; simp at h
      | some pr =>
        obtain ⟨y, l2⟩ := pr
        rw [htf] at h
        simp only [Option.some.injEq, Prod.mk.injEq] at h
        obtain ⟨rfl, rfl⟩ := h
        obtain ⟨h1, h2, h3, h4⟩ := ih y l2 htf
        refine ⟨h1, List.mem_cons_of_mem a h2, fun z hz => ?_, fun q => ?_⟩
        · rcases List.mem_cons.mp hz with hz1 | hz2
          · rw [hz1]; exact List.mem_cons_self a t
          · exact List.mem_cons_of_mem a (h3 z hz2)
        · have hq := h4 q
          by_cases hqa : q a = true <;>
            simp [List.filter_cons, hqa, boolNat] at hq ⊢ <;> omega

theorem GInv_loadDone {D E : Type} (st : SrvState D E) (room : String)
    (err : Option String) (d : Option D) (h : GInv st) :
    GInv (loadDone st room err d) := by
  unfold loadDone
  cases htf : takeFirst (fun pl => pl.room == room) st.pendingLoads with
  | none => exact h
  | some pr =>
    obtain ⟨pl, rest⟩ := pr
    obtain ⟨hp, hmem, hsub, hcount⟩ := takeFirst_spec _ _ _ _ htf
    have hplroom : pl.room = room := by simpa using hp
    have hc := hcount (isLoadFor room)
    have hone : isLoadFor room pl = true := by simp [isLoadFor, hplroom]
    rw [hone] at hc
    have h2 := (h room).2
    simp only [plCount] at h2
    have hble : boolNat (st.requests room && !(st.data room).isSome) ≤ 1 :=
      boolNat_le_one _
    have hrest0 : (List.filter (isLoadFor room) rest).length = 0 := by
      simp only [boolNat, if_true] at hc
      omega
    have hband : (st.requests room && !(st.data room).isSome) = true := by
      apply boolNat_eq_one
      simp only [boolNat, if_true] at hc
      omega
    have hreqt : st.requests room = true := by
      cases hv : st.requests room
      · rw [hv] at hband; simp at hband
      · rfl
    have hdnone : (st.data room).isSome = false := by
      cases hv : (st.data room).isSome
      · rfl
      · rw [hv, hreqt] at hband; simp at hband
    have h1 : countGet st room = 1 := by
      rw [(h room).1, hdnone, hreqt]
      rfl
    apply GInv_invokeCb
    intro r
    by_cases hrr : r = room
    · subst hrr
      constructor
      · simpa [countGet, upd] using h1
      · simp [plCount, upd]
        exact hrest0
    · have hrn : ¬(room = r) := fun hc2 => hrr hc2.symm
      have hcr := hcount (isLoadFor r)
      have hfr : isLoadFor r pl = false := by
        simp [isLoadFor, hplroom]
        exact hrn
      rw [hfr] at hcr
      simp [boolNat] at hcr
      constructor
      · simpa [countGet, upd, hrr] using (h r).1
      · have h2r := (h r).2
        simp only [plCount] at h2r ⊢
        simp only [upd, hrr, if_false]
        omega

theorem GInv_initState {D E : Type} : GInv (initState : SrvState D E) :=
  fun room => ⟨rfl, rfl⟩

theorem GInv_saveSnapshot {D E : Type} (st : SrvState D E) (room : String) (e : E)
    (u : String) (h : GInv st) : GInv (saveSnapshot st room e u) := by
  unfold saveSnapshot
  by_cases hs : st.saveRequests room = true
  · rw [if_pos hs]
    exact h
  · rw [if_neg hs]
    exact GInv_getDataFn _ room _ h

theorem GInv_checkQueueAndSaveAgain {D E : Type} (st : SrvState D E) (room : String)
    (e : E) (u : String) (h : GInv st) : GInv (checkQueueAndSaveAgain st room e u) := by
  unfold checkQueueAndSaveAgain
  by_cases hq : st.saveQueue room = true
  · rw [if_pos hq]
    exact GInv_saveSnapshot _ room e u h
  · rw [if_neg hq]
    exact h

theorem GInv_storeDone {D E : Type} (st : SrvState D E) (room : String) (h : GInv st) :
    GInv (storeDone st room) := by
  unfold storeDone
  cases htf : takeFirst (fun ps => ps.room == room) st.pendingStores with
  | none => exact h
  | some pr =>
    obtain ⟨ps, rest⟩ := pr
    exact GInv_checkQueueAndSaveAgain _ _ _ _ h

theorem GInv_editServerCopy {D E : Type} (st : SrvState D E) (room : String) (d : D)
    (h : GInv st) : GInv (editServerCopy st room d) := by
  unfold editServerCopy
  cases hd : st.data room with
  | none => exact h
  | some rc =>
    intro r
    by_cases hrr : r = room
    · subst hrr
      constructor
      · simpa [countGet, upd, hd] using (h r).1
      · simpa [plCount, upd, hd] using (h r).2
    · constructor
      · simpa [countGet, upd, hrr] using (h r).1
      · simpa [plCount, upd, hrr] using (h r).2

theorem GInv_step {D E : Type} (st : SrvState D E) (a : Act D E) (h : GInv st) :
    GInv (step st a) := by
  cases a with
  | getData room cid => exact GInv_getDataFn st room _ h
  | loadDone room err d => exact GInv_loadDone st room err d h
  | save room e u => exact GInv_saveSnapshot st room e u h
  | storeDone room => exact GInv_storeDone st room h
  | editServerCopy room d => exact GInv_editServerCopy st room d h

theorem GInv_foldl {D E : Type} :
    ∀ (acts : List (Act D E)) (st : SrvState D E), GInv st → GInv (acts.foldl step st)
  | [], st, h => h
  | a :: rest, st, h => GInv_foldl rest (step st a) (GInv_step st a h)

theorem GInv_run {D E : Type} (acts : List (Act D E)) : GInv (run acts) :=
  GInv_foldl acts initState GInv_initState

theorem SInv_initState {D E : Type} : SInv (initState : SrvState D E) := by
  constructor
  · intro room
    exact ⟨by simp [psCount, slCount, initState], fun _ => rfl⟩
  · intro pl hpl
    simp [initState] at hpl

theorem SInv_getData_caller {D E : Type} (st : SrvState D E) (room : String)
    (cid : Nat) (h : SInv st) : SInv (getDataFn st room (.caller cid)) := by
  unfold getDataFn
  cases hd : st.data room with
  | some rc => exact h
  | none =>
    by_cases hq : st.requests room = true
    · rw [if_pos hq]; exact h
    · rw [if_neg hq]
      obtain ⟨ha, hb⟩ := h
      constructor
      · intro r
        have har := ha r
        constructor
        · simpa [psCount, slCount, isSaveLoadFor, isSaveCb, List.filter_append]
            using har.1
        · intro hs
          simpa [psCount, slCount, isSaveLoadFor, isSaveCb, List.filter_append]
            using har.2 hs
      · intro pl hpl
        rcases List.mem_append.mp hpl with h1 | h2
        · exact hb pl h1
        · simp at h2
          rw [h2]
          trivial

theorem filter_append_singleton {α : Type} (p : α → Bool) (l : List α) (x : α) :
    ((l ++ [x]).filter p).length = (l.filter p).length + boolNat (p x) := by
  by_cases h : p x = true <;> simp [List.filter_append, h, boolNat]

theorem SInv_getDataFn_saveCont {D E : Type} (st : SrvState D E) (room : String)
    (e : E) (u : String)
    (ha : ∀ r, psCount st r + slCount st r ≤ 1 ∧
      (st.saveRequests r = false → psCount st r + slCount st r = 0))
    (hb : ∀ pl ∈ st.pendingLoads, cbOk pl)
    (hsr : st.saveRequests room = true)
    (hz : psCount st room + slCount st room = 0) :
    SInv (getDataFn st room (.saveCont room e u)) := by
  unfold getDataFn
  cases hd : st.data room with
  | some rc =>
    dsimp only [invokeCb]
    constructor
    · intro r
      have h1 := (ha r).1
      constructor
      · by_cases hrr : room = r
        · subst hrr
          have hnew1 : boolNat (isStoreFor room
              ({ room := room, edits := e, userid := u } : PendingStore E)) = 1 := by
            simp [isStoreFor, boolNat]
          simp only [psCount, slCount, filter_append_singleton, hnew1] at h1 hz ⊢
          omega
        · have hnew0 : boolNat (isStoreFor r
              ({ room := room, edits := e, userid := u } : PendingStore E)) = 0 := by
            simp [isStoreFor, boolNat, hrr]
          simp only [psCount, slCount, filter_append_singleton, hnew0] at h1 ⊢
          omega
      · intro hcon
        have hcon2 : st.saveRequests r = false := hcon
        have h2 := (ha r).2 hcon2
        by_cases hrr : room = r
        · subst hrr
          rw [hsr] at hcon2
          exact absurd hcon2 (by decide)
        · have hnew0 : boolNat (isStoreFor r
              ({ room := room, edits := e, userid := u } : PendingStore E)) = 0 := by
            simp [isStoreFor, boolNat, hrr]
          simp only [psCount, slCount, filter_append_singleton, hnew0] at h2 ⊢
          omega
    · intro pl hpl
      exact hb pl hpl
  | none =>
    by_cases hq : st.requests room = true
    · rw [if_pos hq]
      constructor
      · intro r
        exact ⟨(ha r).1, fun hcon => (ha r).2 hcon⟩
      · exact hb
    · rw [if_neg hq]
      constructor
      · intro r
        have h1 := (ha r).1
        constructor
        · by_cases hrr : room = r
          · subst hrr
            have hnew1 : boolNat (isSaveLoadFor room
                ({ room := room, cb := Cb.saveCont room e u } : PendingLoad E)) = 1 := by
              simp [isSaveLoadFor, isSaveCb, boolNat]
            simp only [psCount, slCount, filter_append_singleton, hnew1] at h1 hz ⊢
            omega
          · have hnew0 : boolNat (isSaveLoadFor r
                ({ room := room, cb := Cb.saveCont room e u } : PendingLoad E)) = 0 := by
              simp [isSaveLoadFor, isSaveCb, boolNat, hrr]
            simp only [psCount, slCount, filter_append_singleton, hnew0] at h1 ⊢
            omega
        · intro hcon
          have hcon2 : st.saveRequests r = false := hcon
          have h2 := (ha r).2 hcon2
          by_cases hrr : room = r
          · subst hrr
            rw [hsr] at hcon2
            exact absurd hcon2 (by decide)
          · have hnew0 : boolNat (isSaveLoadFor r
                ({ room := room, cb := Cb.saveCont room e u } : PendingLoad E)) = 0 := by
              simp [isSaveLoadFor, isSaveCb, boolNat, hrr]
            simp only [psCount, slCount, filter_append_singleton, hnew0] at h2 ⊢
            omega
      · intro pl hpl
        have hpl2 : pl ∈ st.pendingLoads ++
            [({ room := room, cb := Cb.saveCont room e u } : PendingLoad E)] := hpl
        rcases List.mem_append.mp hpl2 with h1 | h2
        · exact hb pl h1
        · simp at h2
          rw [h2]
          simp [cbOk]

theorem SInv_saveSnapshot {D E : Type} (st : SrvState D E) (room : String) (e : E)
    (u : String) (h : SInv st) : SInv (saveSnapshot st room e u) := by
  unfold saveSnapshot
  by_cases hs : st.saveRequests room = true
  · rw [if_pos hs]; exact h
  · rw [if_neg hs]
    have hs2 : st.saveRequests room = false := by simpa using hs
    obtain ⟨ha, hb⟩ := h
    apply SInv_getDataFn_saveCont
    · intro r
      by_cases hrr : r = room
      · subst hrr
        exact ⟨(ha r).1, fun _ => (ha r).2 hs2⟩
      · refine ⟨(ha r).1, fun hcon => ?_⟩
        have hcon2 : st.saveRequests r = false := by simpa [upd, hrr] using hcon
        exact (ha r).2 hcon2
    · exact hb
    · simp [upd]
    · exact (ha room).2 hs2

theorem SInv_loadDone {D E : Type} (st : SrvState D E) (room : String)
    (err : Option String) (d : Option D) (h : SInv st) : SInv (loadDone st room err d) := by
  unfold loadDone
  cases htf : takeFirst (fun pl => pl.room == room) st.pendingLoads with
  | none => exact h
  | some pr =>
    obtain ⟨pl, rest⟩ := pr
    obtain ⟨hp, hmem, hsub, hcount⟩ := takeFirst_spec _ _ _ _ htf
    have hplroom : pl.room = room := by simpa using hp
    obtain ⟨ha, hb⟩ := h
    dsimp only
    cases hcb : pl.cb with
    | caller cid =>
      dsimp only [invokeCb]
      constructor
      · intro r
        have hcr := hcount (isSaveLoadFor r)
        have hfr : isSaveLoadFor r pl = false := by
          simp [isSaveLoadFor, hcb, isSaveCb]
        rw [hfr] at hcr
        simp [boolNat] at hcr
        have h1 := (ha r).1
        constructor
        · simp only [psCount, slCount] at h1 ⊢
          omega
        · intro hcon
          have hcon2 : st.saveRequests r = false := hcon
          have h3 := (ha r).2 hcon2
          simp only [psCount, slCount] at h3 ⊢
          omega
      · intro q hq2
        have hq3 : q ∈ rest := hq2
        exact hb q (hsub q hq3)
    | saveCont sr e2 u2 =>
      have hok := hb pl hmem
      simp [cbOk, hcb] at hok
      rw [hplroom] at hok
      dsimp only [invokeCb]
      rw [hok]
      constructor
      · intro r
        have hcr := hcount (isSaveLoadFor r)
        have h1 := (ha r).1
        by_cases hrr : room = r
        · subst hrr
          have hfr : isSaveLoadFor room pl = true := by
            simp [isSaveLoadFor, hplroom, hcb, isSaveCb]
          rw [hfr] at hcr
          simp [boolNat] at hcr
          have hnew1 : boolNat (isStoreFor room
              ({ room := room, edits := e2, userid := u2 } : PendingStore E)) = 1 := by
            simp [isStoreFor, boolNat]
          constructor
          · simp only [psCount, slCount, filter_append_singleton, hnew1] at h1 ⊢
            omega
          · intro hcon
            have hcon2 : st.saveRequests room = false := hcon
            have h3 := (ha room).2 hcon2
            simp only [psCount, slCount, filter_append_singleton, hnew1] at h3 ⊢
            omega
        · have hfr : isSaveLoadFor r pl = false := by
            simp [isSaveLoadFor, hplroom]
            exact fun hc => absurd hc hrr
          rw [hfr] at hcr
          simp [boolNat] at hcr
          have hnew0 : boolNat (isStoreFor r
              ({ room := room, edits := e2, userid := u2 } : PendingStore E)) = 0 := by
            simp [isStoreFor, boolNat, hrr]
          constructor
          · simp only [psCount, slCount, filter_append_singleton, hnew0] at h1 ⊢
            omega
          · intro hcon
            have hcon2 : st.saveRequests r = false := hcon
            have h3 := (ha r).2 hcon2
            simp only [psCount, slCount, filter_append_singleton, hnew0] at h3 ⊢
            omega
      · intro q hq2
        have hq3 : q ∈ rest := hq2
        exact hb q (hsub q hq3)

theorem SInv_storeDone {D E : Type} (st : SrvState D E) (room : String) (h : SInv st) :
    SInv (storeDone st room) := by
  unfold storeDone
  cases htf : takeFirst (fun ps => ps.room == room) st.pendingStores with
  | none => exact h
  | some pr =>
    obtain ⟨ps, rest⟩ := pr
    obtain ⟨hp, hmem, hsub, hcount⟩ := takeFirst_spec _ _ _ _ htf
    have hpsroom : ps.room = room := by simpa using hp
    obtain ⟨ha, hb⟩ := h
    have HS2 : SInv ({ st with
        pendingStores := rest,
        saveRequests := upd st.saveRequests ps.room false } : SrvState D E) := by
      constructor
      · intro r
        have hcr := hcount (isStoreFor r)
        have h1 := (ha r).1
        by_cases hrr : room = r
        · subst hrr
          have hf1 : isStoreFor room ps = true := by simp [isStoreFor, hpsroom]
          rw [hf1] at hcr
          simp [boolNat] at hcr
          constructor
          · simp only [psCount, slCount] at h1 ⊢
            omega
          · intro hcon
            simp only [psCount, slCount] at h1 ⊢
            omega
        · have hf0 : isStoreFor r ps = false := by
            simp [isStoreFor, hpsroom]
            exact fun hc => hrr hc
          rw [hf0] at hcr
          simp [boolNat] at hcr
          constructor
          · simp only [psCount, slCount] at h1 ⊢
            omega
          · intro hcon
            have hrn : ¬(r = room) := fun hc => hrr hc.symm
            have hcon2 : st.saveRequests r = false := by
              simpa [upd, hpsroom, hrn] using hcon
            have h3 := (ha r).2 hcon2
            simp only [psCount, slCount] at h3 ⊢
            omega
      · exact hb
    unfold checkQueueAndSaveAgain
    dsimp only
    by_cases hqf : st.saveQueue ps.room = true
    · rw [if_pos hqf]
      exact SInv_saveSnapshot _ _ _ _ HS2
    · rw [if_neg hqf]
      exact HS2

theorem SInv_editServerCopy {D E : Type} (st : SrvState D E) (room : String) (d : D)
    (h : SInv st) : SInv (editServerCopy st room d) := by
  unfold editServerCopy
  cases hd : st.data room with
  | none => exact h
  | some rc => exact h

theorem SInv_step {D E : Type} (st : SrvState D E) (a : Act D E) (h : SInv st) :
    SInv (step st a) := by
  cases a with
  | getData room cid => exact SInv_getData_caller st room cid h
  | loadDone room err d => exact SInv_loadDone st room err d h
  | save room e u => exact SInv_saveSnapshot st room e u h
  | storeDone room => exact SInv_storeDone st room h
  | editServerCopy room d => exact SInv_editServerCopy st room d h

theorem SInv_foldl {D E : Type} :
    ∀ (acts : List (Act D E)) (st : SrvState D E), SInv st → SInv (acts.foldl step st)
  | [], st, h => h
  | a :: rest, st, h => SInv_foldl rest (step st a) (SInv_step st a h)

theorem SInv_run {D E : Type} (acts : List (Act D E)) : SInv (run acts) :=
  SInv_foldl acts initState SInv_initState

theorem data_invokeCb {D E : Type} (st : SrvState D E) (room : String)
    (rc : RoomCache D) (cb : Cb E) : (invokeCb st room rc cb).data = st.data := by
  cases cb <;> rfl

theorem data_getDataFn {D E : Type} (st : SrvState D E) (room : String) (cb : Cb E) :
    (getDataFn st room cb).data = st.data := by
  unfold getDataFn
  cases hd : st.data room with
  | some rc => exact data_invokeCb st room rc cb
  | none => by_cases hq : st.requests room = true <;> simp [hq]

theorem data_saveSnapshot {D E : Type} (st : SrvState D E) (room : String)
    (e : E) (u : String) : (saveSnapshot st room e u).data = st.data := by
  unfold saveSnapshot
  by_cases hs : st.saveRequests room = true
  · simp [hs]
  · simp [hs, data_getDataFn]

theorem data_checkQueueAndSaveAgain {D E : Type} (st : SrvState D E) (room : String)
    (e : E) (u : String) : (checkQueueAndSaveAgain st room e u).data = st.data := by
  unfold checkQueueAndSaveAgain
  by_cases hq : st.saveQueue room = true
  · simp [hq, data_saveSnapshot]
  · simp [hq]

theorem data_storeDone {D E : Type} (st : SrvState D E) (room : String) :
    (storeDone st room).data = st.data := by
  unfold storeDone
  cases htf : takeFirst (fun ps => ps.room == room) st.pendingStores with
  | none => rfl
  | some pr =>
    obtain ⟨ps, rest⟩ := pr
    simp [data_checkQueueAndSaveAgain]

/-- Claim C4: across any schedule, adapter.getData is invoked at most
once per room (and at most one load is ever in flight); moreover a
getData call for a cached room notifies the caller directly from the
cache without touching the adapter, and the cache entry, once present,
survives every subsequent step (there is no reset in the model, which
matches the until-reset scope of the claim). -/
theorem C4_adapter_load_once {D E : Type} :
    (∀ (acts : List (Act D E)) (room : String),
      countGet (run acts) room ≤ 1 ∧ plCount (run acts) room ≤ 1) ∧
    (∀ (st : SrvState D E) (room : String) (cid : Nat) (rc : RoomCache D),
      st.data room = some rc →
      getDataFn st room (Cb.caller cid) =
        { st with trace := st.trace ++ [Ev.notify cid room rc.serverCopy] }) ∧
    (∀ (st : SrvState D E) (a : Act D E) (room : String),
      (st.data room).isSome = true → ((step st a).data room).isSome = true) := by
  refine ⟨fun acts room => ?_, fun st room cid rc h => ?_, fun st a room h => ?_⟩
  · obtain ⟨h1, h2⟩ := GInv_run acts room
    constructor
    · rw [h1]; exact boolNat_le_one _
    · rw [h2]; exact boolNat_le_one _
  · unfold getDataFn
    rw [h]
    rfl
  · cases a with
    | getData r cid =>
      dsimp only [step]
      rw [data_getDataFn]
      exact h
    | loadDone r err d =>
      dsimp only [step]
      unfold loadDone
      cases htf : takeFirst (fun pl => pl.room == r) st.pendingLoads with
      | none => exact h
      | some pr =>
        obtain ⟨pl, rest⟩ := pr
        dsimp only
        rw [data_invokeCb]
        by_cases hrr : room = r
        · subst hrr; simp [upd]
        · simp only [upd]
          rw [if_neg hrr]
          exact h
    | save r e u =>
      dsimp only [step]
      rw [data_saveSnapshot]
      exact h
    | storeDone r =>
      dsimp only [step]
      rw [data_storeDone]
      exact h
    | editServerCopy r d =>
      dsimp only [step]
      unfold editServerCopy
      cases hd : st.data r with
      | none => exact h
      | some rc =>
        dsimp only
        by_cases hrr : room = r
        · subst hrr; simp [upd]
        · simp only [upd]
          rw [if_neg hrr]
          exact h

/-- Witness for C4: one load for room r; a cache-hit getData on stW4;
cache survival across a save step. -/
theorem C4_adapter_load_once_witness :
    (countGet (run ([Act.getData "r" 0] : List (Act Nat Nat))) "r" ≤ 1 ∧
      plCount (run ([Act.getData "r" 0] : List (Act Nat Nat))) "r" ≤ 1) ∧
    stW4.data "r" = some { serverCopy := some 3 } ∧
    getDataFn stW4 "r" (Cb.caller 9) =
      { stW4 with trace := stW4.trace ++ [Ev.notify 9 "r" (some 3)] } ∧
    ((step stW4 (Act.save "r" 5 "u")).data "r").isSome = true :=
  ⟨C4_adapter_load_once.1 [Act.getData "r" 0] "r", rfl,
   C4_adapter_load_once.2.1 stW4 "r" 9 { serverCopy := some 3 } rfl,
   C4_adapter_load_once.2.2 stW4 (Act.save "r" 5 "u") "r" rfl⟩

/-- Claim C3: across any schedule at most one adapter.storeData call
is outstanding per room; a saveSnapshot arriving while a save is in
flight only sets the one-slot queue flag (so any number of arrivals
collapse into that single flag and no storeData is issued); and when
the in-flight save completes with the queue flag set, exactly one
follow-up storeData is issued whose document argument is the current
serverCopy re-read from the cache at that moment, not a document
captured earlier (the pending-store records no document at all). -/
theorem C3_save_coalescing {D E : Type} :
    (∀ (acts : List (Act D E)) (room : String), psCount (run acts) room ≤ 1) ∧
    (∀ (st : SrvState D E) (room : String) (e : E) (u : String),
      st.saveRequests room = true →
      saveSnapshot st room e u = { st with saveQueue := upd st.saveQueue room true }) ∧
    (∀ (st : SrvState D E) (room : String) (ps : PendingStore E)
        (rest : List (PendingStore E)) (rc : RoomCache D),
      takeFirst (fun q => q.room == room) st.pendingStores = some (ps, rest) →
      st.saveQueue ps.room = true →
      st.data ps.room = some rc →
      (storeDone st room).trace =
        st.trace ++ [Ev.adapterStoreData ps.room rc.serverCopy ps.edits ps.userid] ∧
      (storeDone st room).pendingStores =
        rest ++ [{ room := ps.room, edits := ps.edits, userid := ps.userid }] ∧
      (storeDone st room).saveQueue ps.room = false ∧
      (storeDone st room).saveRequests ps.room = true) := by
  refine ⟨fun acts room => ?_, fun st room e u hs => ?_,
    fun st room ps rest rc htf hq hd => ?_⟩
  · have h := ((SInv_run acts).1 room).1
    omega
  · unfold saveSnapshot
    rw [if_pos hs]
  · have hred : storeDone st room =
        checkQueueAndSaveAgain { st with pendingStores := rest } ps.room ps.edits ps.userid := by
      unfold storeDone
      rw [htf]
    rw [hred]
    unfold checkQueueAndSaveAgain
    dsimp only
    rw [if_pos hq]
    unfold saveSnapshot
    dsimp only
    rw [if_neg (show ¬(upd st.saveRequests ps.room false ps.room = true) by simp [upd])]
    unfold getDataFn
    dsimp only
    rw [hd]
    dsimp only [invokeCb]
    refine ⟨rfl, rfl, by simp [upd], by simp [upd]⟩

/-- Witness for C3: on stW3 (one storeData in flight for room r with a
queued follow-up and serverCopy 9 in the cache), a further save only
sets the queue flag, and completion issues exactly one follow-up
carrying the captured edits batch 1 of user u and the fresh
serverCopy. -/
theorem C3_save_coalescing_witness :
    psCount (run ([] : List (Act Nat Nat))) "r" ≤ 1 ∧
    stW3.saveRequests "r" = true ∧
    saveSnapshot stW3 "r" 2 "v" = { stW3 with saveQueue := upd stW3.saveQueue "r" true } ∧
    ((storeDone stW3 "r").trace =
        stW3.trace ++ [Ev.adapterStoreData "r" (some 9) 1 "u"] ∧
      (storeDone stW3 "r").pendingStores = [] ++ [{ room := "r", edits := 1, userid := "u" }] ∧
      (storeDone stW3 "r").saveQueue "r" = false ∧
      (storeDone stW3 "r").saveRequests "r" = true) :=
  ⟨C3_save_coalescing.1 [] "r", rfl,
   C3_save_coalescing.2.1 stW3 "r" 2 "v" rfl,
   C3_save_coalescing.2.2 stW3 "r" { room := "r", edits := 1, userid := "u" } []
     { serverCopy := some 9 } rfl rfl rfl⟩

/-- Claim C5, refuted on the code: two callers request room r before
the adapter load returns; the adapter is invoked once, but when the
load completes only the first caller (callback 1) is notified — the
callback of the second caller was dropped when the source merely re-set
requests[room] = true.  The full trace holds no notify event for
callback 2, even though the load finished and the request flag is
clear, so the second caller is never woken. -/
theorem C5_second_caller_never_notified :
    (run actsW5).trace = [Ev.adapterGetData "r", Ev.notify 1 "r" (some 7)] ∧
    countGet (run actsW5) "r" = 1 ∧
    (run actsW5).requests "r" = false :=
  ⟨rfl, rfl, rfl⟩

/-- Claim C6, refuted on the code: the adapter reports a load error
for room r, but the source ignores the error argument, publishes a
cache entry whose serverCopy is the undefined data it was passed,
notifies the caller with that partial state, and serves the next
getData for the room from this cache entry without ever retrying the
adapter (countGet stays 1).  Only the in-flight flag really is
cleared. -/
theorem C6_load_failure_caches_error_result :
    (run actsW6).data "r" = some { serverCopy := none } ∧
    (run actsW6).requests "r" = false ∧
    (run actsW6).trace =
      [Ev.adapterGetData "r", Ev.notify 1 "r" none, Ev.notify 2 "r" none] ∧
    countGet (run actsW6) "r" = 1 :=
  ⟨rfl, rfl, rfl, rfl⟩

/-- Claim C10: when a second saveSnapshot for room r arrives while the
storeData of the first one is in flight, the follow-up save issued after
completion passes the edits batch and userid captured by the first
call (e1, u1), not those of the coalesced call (e2, u2), while its
serverCopy argument is re-read fresh (d1, the value patched into the
room after the first storeData was issued). -/
theorem C10_followup_uses_captured_edits_and_userid
    (d0 d1 e1 e2 : Nat) (u1 u2 : String) :
    (run [Act.getData "r" 0, Act.loadDone "r" none (some d0),
          Act.save "r" e1 u1, Act.save "r" e2 u2,
          Act.editServerCopy "r" d1, Act.storeDone "r"]).trace =
      [Ev.adapterGetData "r", Ev.notify 0 "r" (some d0),
       Ev.adapterStoreData "r" (some d0) e1 u1,
       Ev.adapterStoreData "r" (some d1) e1 u1] := rfl

end Async

end DiffSync
